import Mathlib

/-!
Verification of the recurring-task definition engine
(`src/commands/main/say/index.js` of pysudo/common-pepper).

The JavaScript module is embedded shallowly:

* `JSVal` models the JSON-like values the module manipulates
  (parsed store documents, task records).
* `jsonStringify` models compact `JSON.stringify` (no indent), which is
  what `validateJSON` applies its pattern to.
* `RE`/`reMatches` is a Brzozowski-derivative regular-expression matcher;
  the three field patterns and the whole-store pattern of the source are
  transcribed into `RE` values.
* `parseSeconds`, `checkRegexNotMatch`, `validateJSON`, `updateTaskList`,
  `modifyTask` and `exec` translate the functions of the same names.
  File I/O is modelled by passing the parsed store document as an
  `Option JSVal` (`none` = `readFileSync`/`JSON.parse` threw) and
  returning the document written back (unchanged when nothing is written).
  `parseSeconds` reads the clock (`new Date().getTime()`); the reading is
  threaded through as the explicit argument `epox`.
* `exec` additionally records the list of argument strings passed to
  `parseSeconds` during the call, so that claims about which strings ever
  reach the interval parser can be stated.
-/

/-- A JavaScript/JSON value as manipulated by the module: the result of
`JSON.parse` on the store file, task records, and the array/string values
flowing through `updateTaskList`. Objects keep their properties in
insertion order, as JS objects do. -/
inductive JSVal where
  | null : JSVal
  | bool : Bool → JSVal
  | num : Int → JSVal
  | str : String → JSVal
  | arr : List JSVal → JSVal
  | obj : List (String × JSVal) → JSVal
deriving Repr

/-- JS truthiness of a value (`if (v)`). -/
def jsTruthy : JSVal → Bool
  | .null => false
  | .bool b => b
  | .num n => n ≠ 0
  | .str s => s ≠ ""
  | .arr _ => true
  | .obj _ => true

/-- JS truthiness of a possibly-undefined value (`undefined` is falsy). -/
def jsTruthyOpt : Option JSVal → Bool
  | none => false
  | some v => jsTruthy v

mutual

/-- The JS `ToString` coercion used for template-string interpolation and
property keys, on the value shapes the module produces: an array converts
to its elements joined by commas (`Array.prototype.toString`). -/
def jsToString : JSVal → String
  | .null => "null"
  | .bool b => if b then "true" else "false"
  | .num n => toString n
  | .str s => s
  | .arr xs => jsToStringArr xs
  | .obj _ => "[object Object]"

/-- `Array.prototype.join(",")`: elements converted and comma-joined,
with `null` elements printing as the empty string. -/
def jsToStringArr : List JSVal → String
  | [] => ""
  | [.null] => ""
  | [v] => jsToString v
  | .null :: w :: rest => "," ++ jsToStringArr (w :: rest)
  | v :: w :: rest => jsToString v ++ "," ++ jsToStringArr (w :: rest)

end

/-- The `undefined`-aware coercion: `String(undefined) = "undefined"`. -/
def jsToStringOpt : Option JSVal → String
  | none => "undefined"
  | some v => jsToString v

/-- JS strict equality `===` on the value shapes compared by the module.
Arrays and objects compare by reference; the only object operands that
occur (the freshly spliced `taskName` array in `modifyTask`) are never
aliased to the other operand, so they compare unequal. -/
def jsStrictEq : JSVal → JSVal → Bool
  | .null, .null => true
  | .bool a, .bool b => a = b
  | .num a, .num b => a = b
  | .str a, .str b => a = b
  | _, _ => false

/-- Property read `o[key]` on a JS object: first binding wins (keys of a
parsed JSON object are unique). `none` is JS `undefined`. -/
def objGet : List (String × JSVal) → String → Option JSVal
  | [], _ => none
  | (k, v) :: rest, key => if k = key then some v else objGet rest key

/-- Property write `o[key] = v`: an existing key keeps its position and
gets the new value, a fresh key is appended (JS insertion order). -/
def objSet : List (String × JSVal) → String → JSVal → List (String × JSVal)
  | [], key, v => [(key, v)]
  | (k, w) :: rest, key, v =>
    if k = key then (k, v) :: rest else (k, w) :: objSet rest key v

/-- Property removal `delete o[key]`. -/
def objDelete : List (String × JSVal) → String → List (String × JSVal)
  | [], _ => []
  | (k, w) :: rest, key =>
    if k = key then rest else (k, w) :: objDelete rest key

/-- The object spread `{...old, ...updatedTask}` of the modify branch:
properties of `old` in order, updated in place by the patch, fresh patch
keys appended. Spreading a non-object primitive contributes no
properties; `old` is always a task record (an object) here. -/
def jsSpread (old : JSVal) (patch : List (String × JSVal)) :
    List (String × JSVal) :=
  patch.foldl (fun acc kv => objSet acc kv.1 kv.2)
    (match old with
     | .obj kvs => kvs
     | _ => [])

/-- One hexadecimal digit, for `\u00XX` escapes. -/
def hexDigit (n : Nat) : Char :=
  if n < 10 then Char.ofNat (48 + n) else Char.ofNat (87 + n)

/-- `JSON.stringify` escaping of a single string character. -/
def jsonEscapeChar (c : Char) : String :=
  if c = '"' then "\\\""
  else if c = '\\' then "\\\\"
  else if c = '\n' then "\\n"
  else if c = '\r' then "\\r"
  else if c = '\t' then "\\t"
  else if c = Char.ofNat 8 then "\\b"
  else if c = Char.ofNat 12 then "\\f"
  else if c.toNat < 32 then
    "\\u00" ++ String.mk [hexDigit (c.toNat / 16), hexDigit (c.toNat % 16)]
  else String.singleton c

/-- `JSON.stringify` of a string literal, quotes included. -/
def jsonQuote (s : String) : String :=
  "\"" ++ String.join (s.data.map jsonEscapeChar) ++ "\""

mutual

/-- Compact `JSON.stringify` (no indent argument), the serialization
`validateJSON` matches its pattern against. -/
def jsonStringify : JSVal → String
  | .null => "null"
  | .bool b => if b then "true" else "false"
  | .num n => toString n
  | .str s => jsonQuote s
  | .arr xs => "[" ++ jsonStringifyArr xs ++ "]"
  | .obj kvs => "\x7b" ++ jsonStringifyObj kvs ++ "\x7d"

/-- Comma-separated serialization of array elements. -/
def jsonStringifyArr : List JSVal → String
  | [] => ""
  | [x] => jsonStringify x
  | x :: y :: rest => jsonStringify x ++ "," ++ jsonStringifyArr (y :: rest)

/-- Comma-separated serialization of object properties. -/
def jsonStringifyObj : List (String × JSVal) → String
  | [] => ""
  | [(k, v)] => jsonQuote k ++ ":" ++ jsonStringify v
  | (k, v) :: p :: rest =>
    jsonQuote k ++ ":" ++ jsonStringify v ++ "," ++ jsonStringifyObj (p :: rest)

end

/-- Regular expressions over characters, covering the constructs used by
the source's patterns: character classes, concatenation, alternation,
Kleene star and bounded repetition (the `(lo, hi)` counted form). `nul`
is the empty language (no source pattern writes it; derivatives produce
it). -/
inductive RE where
  | nul : RE
  | eps : RE
  | tok : (Char → Bool) → RE
  | cat : RE → RE → RE
  | alt : RE → RE → RE
  | star : RE → RE
  | rep : RE → Nat → Nat → RE

/-- Smart concatenation, collapsing the empty language and `ε`. -/
def RE.mkCat : RE → RE → RE
  | .nul, _ => .nul
  | _, .nul => .nul
  | .eps, b => b
  | a, .eps => a
  | a, b => .cat a b

/-- Smart alternation, collapsing the empty language. -/
def RE.mkAlt : RE → RE → RE
  | .nul, b => b
  | a, .nul => a
  | a, b => .alt a b

/-- Does the language of `r` contain the empty string? -/
def RE.nullable : RE → Bool
  | .nul => false
  | .eps => true
  | .tok _ => false
  | .cat a b => a.nullable && b.nullable
  | .alt a b => a.nullable || b.nullable
  | .star _ => true
  | .rep a lo _ => lo = 0 || a.nullable

/-- Brzozowski derivative of `r` with respect to the character `c`. -/
def RE.deriv : RE → Char → RE
  | .nul, _ => .nul
  | .eps, _ => .nul
  | .tok p, c => if p c then .eps else .nul
  | .cat a b, c =>
    if a.nullable then .mkAlt (.mkCat (a.deriv c) b) (b.deriv c)
    else .mkCat (a.deriv c) b
  | .alt a b, c => .mkAlt (a.deriv c) (b.deriv c)
  | .star a, c => .mkCat (a.deriv c) (.star a)
  | .rep a lo hi, c =>
    if hi = 0 then .nul
    else .mkCat (a.deriv c) (.rep a (lo - 1) (hi - 1))

/-- Whole-string match (the source's patterns are `^...$`-anchored). -/
def reMatches (r : RE) (s : List Char) : Bool :=
  (s.foldl RE.deriv r).nullable

/-- The literal regex fragment matching the characters of `s` in order. -/
def rlit (s : String) : RE :=
  s.data.foldr (fun c r => RE.mkCat (.tok fun d => d = c) r) .eps

/-- `\d+`: one or more decimal digits. -/
def reDigits : RE := .cat (.tok Char.isDigit) (.star (.tok Char.isDigit))

/-- The interval pattern of `checkRegexNotMatch`:
`/^\d+$|^(\d+:){1,2}(\d+)$/`. -/
def intervalRE : RE :=
  .alt reDigits
    (.cat (.rep (.cat reDigits (.tok fun c => c = ':')) 1 2) reDigits)

/-- A channel character: `[a-zA-Z0-9_]`. -/
def chanChar (c : Char) : Bool := c.isAlphanum || c = '_'

/-- A task-name character: `[a-zA-Z0-9_-]`. -/
def nameChar (c : Char) : Bool := c.isAlphanum || c = '_' || c = '-'

/-- The channel pattern of `checkRegexNotMatch`: `/^[a-zA-Z0-9_]{4,25}$/`. -/
def channelRE : RE := .rep (.tok chanChar) 4 25

/-- The task-name pattern of `checkRegexNotMatch`:
`/^[a-zA-Z0-9_-]{3,40}$/`. -/
def taskNameRE : RE := .rep (.tok nameChar) 3 40

/-- One store entry of the `taskList` pattern in `validateJSON`:
`"[a-zA-Z0-9_-]{3,40}":{("totalWaitInterval":\d+,"channel":"[a-zA-Z0-9_]{4,25}","taskMessage":"(([^"]|(\\"))*)")}`. -/
def storeEntryRE : RE :=
  .cat (rlit "\"")
    (.cat (.rep (.tok nameChar) 3 40)
      (.cat (rlit "\":\x7b\"totalWaitInterval\":")
        (.cat reDigits
          (.cat (rlit ",\"channel\":\"")
            (.cat (.rep (.tok chanChar) 4 25)
              (.cat (rlit "\",\"taskMessage\":\"")
                (.cat (.star (.alt (.tok fun c => c ≠ '"') (rlit "\\\"")))
                  (rlit "\"\x7d"))))))))

/-- The whole-store pattern `taskList` of `validateJSON`:
`/^(\[{((ENTRY,){0,}(ENTRY))*}\])$/` with `ENTRY` as in `storeEntryRE`. -/
def taskListRE : RE :=
  .cat (rlit "[\x7b")
    (.cat (.star (.cat (.star (.cat storeEntryRE (rlit ","))) storeEntryRE))
      (rlit "\x7d]"))



/-- Decimal digit prefix value (`parseInt`'s digit scan): `none` when no
digit is found, i.e. `NaN`. -/
def decDigitsVal (cs : List Char) : Option Nat :=
  match cs.takeWhile Char.isDigit with
  | [] => none
  | ds => some (ds.foldl (fun a c => a * 10 + (c.toNat - 48)) 0)

/-- Value of one hexadecimal digit. -/
def hexVal (c : Char) : Nat :=
  if c.isDigit then c.toNat - 48
  else if 'a' ≤ c ∧ c ≤ 'f' then c.toNat - 87
  else c.toNat - 55

/-- Hexadecimal digit prefix value, for `parseInt`'s `0x` form. -/
def hexDigitsVal (cs : List Char) : Option Nat :=
  match cs.takeWhile (fun c => c.isDigit ∨ ('a' ≤ c ∧ c ≤ 'f') ∨ ('A' ≤ c ∧ c ≤ 'F')) with
  | [] => none
  | ds => some (ds.foldl (fun a c => a * 16 + hexVal c) 0)

/-- `String.prototype.split` with a one-character separator, as
`interval.split(":")` uses it: splitting the empty string gives `[""]`,
adjacent separators give empty pieces. -/
def splitChar (sep : Char) : List Char → List (List Char)
  | [] => [[]]
  | c :: rest =>
    if c = sep then [] :: splitChar sep rest
    else
      match splitChar sep rest with
      | [] => [[c]]
      | p :: ps => (c :: p) :: ps

/-- ASCII `String.prototype.toLowerCase` (every character the module's
validated channels can contain is ASCII). -/
def jsLowerChar (c : Char) : Char :=
  if 'A' ≤ c ∧ c ≤ 'Z' then Char.ofNat (c.toNat + 32) else c

/-- Lower-case a string character by character. -/
def jsLower (s : String) : String := String.mk (s.data.map jsLowerChar)

/-- A JS whitespace character skipped by `parseInt`. -/
def isJsSpace (c : Char) : Bool :=
  c = ' ' ∨ c = '\t' ∨ c = '\n' ∨ c = '\r' ∨ c = Char.ofNat 11 ∨ c = Char.ofNat 12

/-- JS `parseInt(s)` with an undefined radix: skip leading whitespace,
read an optional sign, detect a `0x`/`0X` prefix (hexadecimal), then take
the longest digit prefix. `none` models the `NaN` result. -/
def jsParseInt (s : List Char) : Option Int :=
  let cs := s.dropWhile isJsSpace
  let (sgn, cs2) : Int × List Char :=
    match cs with
    | '-' :: r => (-1, r)
    | '+' :: r => (1, r)
    | _ => (1, cs)
  let mag : Option Nat :=
    match cs2 with
    | '0' :: 'x' :: r => hexDigitsVal r
    | '0' :: 'X' :: r => hexDigitsVal r
    | _ => decDigitsVal cs2
  mag.map fun m => sgn * m

/-- The extreme time value representable by a JS `Date`:
`new Date(t)` stringifies to `"Invalid Date"` exactly when `|t|` exceeds
8,640,000,000,000,000 milliseconds. -/
def jsMaxTime : Int := 8640000000000000

/-- `new Date(t).toString() !== "Invalid Date"`. -/
def dateValid (t : Int) : Bool := -jsMaxTime ≤ t ∧ t ≤ jsMaxTime

/-- JS truthiness of a possibly-undefined, possibly-`NaN` number
(`undefined`, `NaN` and `0` are all falsy). `none` stands for both
`undefined` and `NaN`: the two are interchangeable here because every
use of a time part is guarded by its own truthiness. -/
def numTruthy (o : Option Int) : Bool := o.getD 0 ≠ 0

/-- `parseSeconds(interval)`: split on `:`, `parseInt` each part, read
the parts right-to-left as seconds / minutes / hours, reject (return 0)
when any truthy part pushed onto the current clock reading `epox` — or
the final sum itself — yields an invalid `Date`, otherwise sum the truthy
parts into seconds. `epox` is the module's `new Date().getTime()`. -/
def parseSeconds (epox : Int) (interval : String) : Int :=
  let timeParts := (splitChar ':' interval.data).map jsParseInt
  let hms : Option Int × Option Int × Option Int :=
    match timeParts with
    | [s] => (none, none, s)
    | [m, s] => (none, m, s)
    | [h, m, s] => (h, m, s)
    | _ => (none, none, none)
  let hours := hms.1
  let minutes := hms.2.1
  let seconds := hms.2.2
  if (numTruthy seconds && !dateValid (epox + seconds.getD 0))
      || (numTruthy minutes && !dateValid (epox + minutes.getD 0 * 60))
      || (numTruthy hours && !dateValid (epox + hours.getD 0 * 60 * 60)) then
    0
  else
    let intervalInSeconds :=
      (if numTruthy seconds then seconds.getD 0 else 0)
        + (if numTruthy minutes then minutes.getD 0 * 60 else 0)
        + (if numTruthy hours then hours.getD 0 * 60 * 60 else 0)
    if !dateValid intervalInSeconds then 0 else intervalInSeconds

/-- Violation message for the interval pattern. -/
def intervalErrMsg : String := "Interval should be in h:m:s or m:s or s format."

/-- Violation message for the channel pattern. -/
def channelErrMsg : String :=
  "Username should only contain alphanumeric and underscores, ranging from 4-25 characters only."

/-- Violation message for the task-name pattern (the source's text says
3-50 although its pattern bounds 40). -/
def taskNameErrMsg : String :=
  "Task names should only contain alphanumerics, hyphens and underscores, ranging from 3-50 characters only."

/-- `checkRegexNotMatch(toMatch)`: walk the supplied fields in insertion
order; on the first field whose value fails its pattern return that
violation message; fields with other names are skipped by the `switch`;
`none` models the falsy `false` returned when all fields pass. -/
def checkRegexNotMatch : List (String × String) → Option String
  | [] => none
  | (k, v) :: rest =>
    if k = "every" then
      if reMatches intervalRE v.data then checkRegexNotMatch rest
      else some intervalErrMsg
    else if k = "on" then
      if reMatches channelRE v.data then checkRegexNotMatch rest
      else some channelErrMsg
    else if k = "named" then
      if reMatches taskNameRE v.data then checkRegexNotMatch rest
      else some taskNameErrMsg
    else checkRegexNotMatch rest

/-- What `updateTaskList` hands back to the chat layer: a string reply,
or the bare `false` returned from its `catch` block. -/
inductive Reply where
  | str : String → Reply
  | boolFalse : Reply
deriving Repr, DecidableEq

/-- The operation selector passed to `updateTaskList`; its callers pass
exactly the literals "create", "modify" and "delete". -/
inductive OpType where
  | create : OpType
  | modify : OpType
  | delete : OpType
deriving Repr, DecidableEq

/-- The reply of a failed store validation. -/
def invalidTaskListMsg : String := "Invalid Task List."

/-- `validateJSON(db, taskName)`: `JSON.stringify` the parsed document
and match it against the whole-store pattern; on success return `true`.
Otherwise, when `taskName` is truthy (the modify call passes the spliced
name array; other calls pass the falsy `""`), run the diagnostic block:
`const [tasks] = db` throws on a non-iterable document, and the
`tasks[taskName]` read throws when `tasks` is `undefined` (empty array
document) or `null`; `.error ()` models such an exception propagating to
the caller's `catch`. In every non-throwing failure case the block only
logs and the function returns `false`. -/
def validateJSON (db : JSVal) (taskName : JSVal) : Except Unit Bool :=
  if reMatches taskListRE (jsonStringify db).data then .ok true
  else if jsTruthy taskName then
    match db with
    | .arr [] => .error ()
    | .arr (.null :: _) => .error ()
    | .arr (_ :: _) => .ok false
    | .str s => if s = "" then .error () else .ok false
    | _ => .error ()
  else .ok false

/-- `updateTaskList(taskName, type, updatedTask)` over a store state:
`file` is the `JSON.parse` of the on-disk document (`none` when
`readFileSync`/`JSON.parse` threw — the `catch` then returns `false`).
The result pairs the returned value with the store state after the call
(the document written back, or the unchanged input when nothing is
written). After a successful validation the document necessarily has the
form `[{...}]`; any other shape would make the destructuring or the
property accesses throw, which the final catch-all arm models. -/
def updateTaskList (taskName : JSVal) (type : OpType)
    (updatedTask : List (String × JSVal)) (file : Option JSVal) :
    Reply × Option JSVal :=
  match file with
  | none => (.boolFalse, none)
  | some doc =>
    match validateJSON doc (if type = .modify then taskName else .str "") with
    | .error _ => (.boolFalse, some doc)
    | .ok false => (.str invalidTaskListMsg, some doc)
    | .ok true =>
      match doc with
      | .arr (.obj tasks :: _) =>
        let key := jsToString taskName
        match type with
        | .create =>
          let returned :=
            "Task " ++ key ++ " activated on channel "
              ++ jsToStringOpt (objGet updatedTask "channel") ++ "."
          if jsTruthyOpt (objGet tasks key) then
            (.str ("Task with name \x27" ++ key ++ "\x27 already exists."),
              some doc)
          else
            (.str returned,
              some (.arr [.obj (objSet tasks key (.obj updatedTask))]))
        | .modify =>
          let returned := "Task " ++ key ++ " successfully modified."
          if !jsTruthyOpt (objGet tasks key) then
            (.str ("The task \x27" ++ key ++ "\x27 does not exists."),
              some doc)
          else if (updatedTask.map Prod.fst).contains "named" then
            let namedVal := (objGet updatedTask "named").getD .null
            if !jsStrictEq taskName namedVal then
              let moved := (objGet tasks key).getD .null
              let tasks2 := objDelete (objSet tasks (jsToString namedVal) moved) key
              (.str returned, some (.arr [.obj tasks2]))
            else
              (.str returned, some (.arr [.obj tasks]))
          else
            let old := (objGet tasks key).getD .null
            let tasks2 := objSet tasks key (.obj (jsSpread old updatedTask))
            (.str returned, some (.arr [.obj tasks2]))
        | .delete =>
          let returned := "Task " ++ key ++ " successfully removed."
          if !jsTruthyOpt (objGet tasks key) then
            (.str ("The task \x27" ++ key ++ "\x27 does not exists."),
              some doc)
          else
            (.str returned, some (.arr [.obj (objDelete tasks key)]))
      | _ => (.boolFalse, some doc)

/-- The result of one `exec` call: the reply handed to the chat layer,
the store state after the call, and the argument strings that were passed
to `parseSeconds` during the call (the call trace needed to reason about
which strings ever reach the interval parser). -/
structure ExecResult where
  reply : Reply
  store : Option JSVal
  secondsCalls : List String
deriving Repr

/-- The command prefix `process.env.PREFIX` supplied by the environment
collaborator; its value is irrelevant to every claim. -/
def cmdPref : String := "!"

/-- The `usage` help string of the `say` object. -/
def sayUsage : String :=
  cmdPref ++ "say <message> every <h>:<m>:<s> on <channel> named <task-name>"

/-- The `modify` help string of the `say` object. -/
def sayModifyUsage : String :=
  cmdPref ++ "say modify say|on|every|named <message>|<h>:<m>:<s>|<channel>|<task-name>"

/-- The reply of the clear command. -/
def wipedMsg : String := "The task list has been wiped clean."

/-- The document `[{}]` written by `DBInit` at first use and by the clear
command: a one-element array holding an empty mapping. -/
def initialDoc : JSVal := .arr [.obj []]

/-- `modifyTask(request)`: `request` is the raw command minus its leading
`modify` token. `splice(0, 1)` makes `taskName` a (singleton) *array* of
strings, which is how it travels into `updateTaskList`. -/
def modifyTask (epox : Int) (request : List String) (file : Option JSVal) :
    ExecResult :=
  let taskName : JSVal := .arr ((request.take 1).map .str)
  let rest1 := request.drop 1
  if rest1.length = 1 ∧ (rest1.head? = some "remove" ∨ rest1.head? = some "delete") then
    let rs := updateTaskList taskName .delete [] file
    ⟨rs.1, rs.2, []⟩
  else if rest1.length = 1
      ∨ !(match rest1.head? with
          | some h => ["say", "every", "on", "named"].contains h
          | none => false) then
    ⟨.str sayModifyUsage, file, []⟩
  else
    let modifyType := rest1.headD ""
    let rest2 := rest1.drop 1
    match (if modifyType ≠ "say" ∧ rest2.length = 1 then
        checkRegexNotMatch [(modifyType, rest2.headD "")]
      else none) with
    | some msg => ⟨.str msg, file, []⟩
    | none =>
      if modifyType = "say" then
        let rs := updateTaskList taskName .modify
          [("taskMessage", .str (String.intercalate " " rest2))] file
        ⟨rs.1, rs.2, []⟩
      else if modifyType = "every" then
        let arg := rest2.headD ""
        let rs := updateTaskList taskName .modify
          [("totalWaitInterval", .num (parseSeconds epox arg))] file
        ⟨rs.1, rs.2, [arg]⟩
      else if modifyType = "on" then
        let rs := updateTaskList taskName .modify
          [("channel", .str (jsLower (rest2.headD "")))] file
        ⟨rs.1, rs.2, []⟩
      else if modifyType = "named" then
        let rs := updateTaskList taskName .modify
          [("named", .str (rest2.headD ""))] file
        ⟨rs.1, rs.2, []⟩
      else
        -- the switch has no matching case: modifiedTask stays empty
        let rs := updateTaskList taskName .modify [] file
        ⟨rs.1, rs.2, []⟩

/-- The index at which `request.splice(request.length - 6)` starts
removing: JS clamps a negative start to `max(length + start, 0)`. -/
def spliceIdx (len : Nat) : Nat :=
  let start : Int := (len : Int) - 6
  if start < 0 then (max ((len : Int) + start) 0).toNat else min start.toNat len

/-- JS array read `xs[i]` with an `Int` index: out-of-range and negative
indices give `undefined`. -/
def jsIdx (xs : List String) (i : Int) : Option String :=
  if i < 0 then none else xs[i.toNat]?

/-- `exec(context, request)` of the `say` command object, over a store
state (`context` is unused by the source). The clear command rewrites the
document unconditionally; a leading `modify` delegates; otherwise the
last six tokens are spliced off as metadata, shape-checked, field-checked,
and turned into a create request. Replies, the written store document and
the `parseSeconds` call trace are all recorded in the result. -/
def exec (epox : Int) (request : List String) (file : Option JSVal) :
    ExecResult :=
  if String.intercalate " " request = "clear task list" then
    ⟨.str wipedMsg, some initialDoc, []⟩
  else if request.head? = some "modify" then
    modifyTask epox (request.drop 1) file
  else
    let idx := spliceIdx request.length
    let meta := request.drop idx
    let req := request.take idx
    if req.length = 0
        ∨ jsIdx meta 0 ≠ some "every"
        ∨ jsIdx meta ((meta.length : Int) - 4) ≠ some "on"
        ∨ jsIdx meta ((meta.length : Int) - 2) ≠ some "named" then
      ⟨.str sayUsage, file, []⟩
    else
      match meta with
      | [_, every, _, onChan, _, taskName] =>
        match checkRegexNotMatch
            [("every", every), ("on", onChan), ("named", taskName)] with
        | some msg => ⟨.str msg, file, []⟩
        | none =>
          let intervalInSeconds := parseSeconds epox every
          if intervalInSeconds = 0 then
            ⟨.str "Please enter a valid interval.", file, [every]⟩
          else
            let newTask : List (String × JSVal) :=
              [("totalWaitInterval", .num intervalInSeconds),
               ("channel", .str (jsLower onChan)),
               ("taskMessage", .str (String.intercalate " " req))]
            let rs := updateTaskList (.str taskName) .create newTask file
            ⟨rs.1, rs.2, [every]⟩
      | _ =>
        -- dead arm: the three index checks force a six-element meta list
        ⟨.str sayUsage, file, []⟩

/-! ### Concrete store fixtures used by witnesses and counterexamples -/

/-- A well-formed task record. -/
def sampleTask : List (String × JSVal) :=
  [("totalWaitInterval", .num 5), ("channel", .str "mychan"),
   ("taskMessage", .str "hello there")]

/-- A mapping holding the single task `t-1`. -/
def sampleTasks : List (String × JSVal) := [("t-1", .obj sampleTask)]

/-- A structurally valid one-task store document. -/
def sampleDoc : JSVal := .arr [.obj sampleTasks]

/-- A mapping whose entry `t-1` has only two of the three required
fields — the spec's canonical example of a corrupt store. -/
def twoFieldTasks : List (String × JSVal) :=
  [("t-1", .obj [("totalWaitInterval", .num 5), ("channel", .str "mychan")])]

/-- The corrupt store document built from `twoFieldTasks`. -/
def twoFieldDoc : JSVal := .arr [.obj twoFieldTasks]

/-- A second well-formed task record. -/
def secondTask : List (String × JSVal) :=
  [("totalWaitInterval", .num 60), ("channel", .str "chan2"),
   ("taskMessage", .str "msg two")]

/-- A mapping holding the two tasks `t-1` and `t-2`. -/
def twoTasks : List (String × JSVal) :=
  [("t-1", .obj sampleTask), ("t-2", .obj secondTask)]

/-- A structurally valid two-task store document. -/
def twoTaskDoc : JSVal := .arr [.obj twoTasks]

/-- A fresh task record used as a create payload. -/
def freshTask : List (String × JSVal) :=
  [("totalWaitInterval", .num 7), ("channel", .str "chans"),
   ("taskMessage", .str "x y")]

/-! ### Helper lemmas about the association-list operations -/

theorem objGet_objSet_self (l : List (String × JSVal)) (k : String) (v : JSVal) :
    objGet (objSet l k v) k = some v := by
  induction l with
  | nil => simp [objSet, objGet]
  | cons p rest ih =>
    obtain ⟨pk, pv⟩ := p
    by_cases h : pk = k
    · simp [objSet, objGet, h]
    · simp [objSet, objGet, h, ih]

theorem objGet_objSet_ne (l : List (String × JSVal)) (k k' : String) (v : JSVal)
    (h : k ≠ k') : objGet (objSet l k' v) k = objGet l k := by
  have h' : ¬ (k' = k) := fun he => h he.symm
  induction l with
  | nil => simp [objSet, objGet, h']
  | cons p rest ih =>
    obtain ⟨pk, pv⟩ := p
    by_cases hp : pk = k'
    · subst hp
      simp [objSet, objGet, h']
    · by_cases hk : pk = k
      · simp [objSet, objGet, hp, hk, h]
      · simp [objSet, objGet, hp, hk, ih]

theorem objGet_objDelete_ne (l : List (String × JSVal)) (k k' : String)
    (h : k ≠ k') : objGet (objDelete l k') k = objGet l k := by
  have h' : ¬ (k' = k) := fun he => h he.symm
  induction l with
  | nil => simp [objDelete]
  | cons p rest ih =>
    obtain ⟨pk, pv⟩ := p
    by_cases hp : pk = k'
    · subst hp
      simp [objDelete, objGet, h']
    · by_cases hk : pk = k
      · simp [objDelete, objGet, hp, hk, h]
      · simp [objDelete, objGet, hp, hk, ih]

theorem objGet_eq_none_of_not_mem (l : List (String × JSVal)) (k : String)
    (h : k ∉ l.map Prod.fst) : objGet l k = none := by
  induction l with
  | nil => simp [objGet]
  | cons p rest ih =>
    obtain ⟨pk, pv⟩ := p
    simp only [List.map_cons, List.mem_cons] at h
    push_neg at h
    have h1 : ¬ (pk = k) := fun he => h.1 he.symm
    simp [objGet, h1, ih h.2]

theorem objGet_objDelete_self (l : List (String × JSVal)) (k : String)
    (h : (l.map Prod.fst).Nodup) : objGet (objDelete l k) k = none := by
  induction l with
  | nil => simp [objDelete, objGet]
  | cons p rest ih =>
    obtain ⟨pk, pv⟩ := p
    simp only [List.map_cons, List.nodup_cons] at h
    by_cases hp : pk = k
    · subst hp
      simpa [objDelete] using objGet_eq_none_of_not_mem rest pk h.1
    · simp [objDelete, objGet, hp, ih h.2]

theorem length_objSet_mem (l : List (String × JSVal)) (k : String) (v : JSVal)
    (h : k ∈ l.map Prod.fst) : (objSet l k v).length = l.length := by
  induction l with
  | nil => simp at h
  | cons p rest ih =>
    obtain ⟨pk, pv⟩ := p
    by_cases hp : pk = k
    · simp [objSet, hp]
    · simp only [List.map_cons, List.mem_cons] at h
      rcases h with h | h
      · exact absurd h.symm hp
      · simp [objSet, hp, ih h]

theorem length_objDelete_mem (l : List (String × JSVal)) (k : String)
    (h : k ∈ l.map Prod.fst) : (objDelete l k).length = l.length - 1 := by
  induction l with
  | nil => simp at h
  | cons p rest ih =>
    obtain ⟨pk, pv⟩ := p
    by_cases hp : pk = k
    · simp [objDelete, hp]
    · simp only [List.map_cons, List.mem_cons] at h
      rcases h with h | h
      · exact absurd h.symm hp
      · have hne : rest.length ≠ 0 := by
          intro h0
          rw [List.length_eq_zero] at h0
          simp [h0] at h
        simp only [objDelete, if_neg hp, List.length_cons, ih h]
        omega

/-- Two strings differ when suitable prefixes of their character data
differ; used to separate the module's reply strings from each other. -/
theorem String.ne_of_take_ne (s t : String) (n : Nat)
    (h : s.data.take n ≠ t.data.take n) : s ≠ t := by
  intro he
  exact h (he ▸ rfl)

/-! ### Claim theorems -/

/-- C7: for every prior store state (any parsed document, or an unreadable
file) and any clock reading, the command `clear task list` resets the
persisted document to `[{}]` — the one-element sequence holding an empty
mapping — and returns the confirmation string. -/
theorem exec_clear_resets_store (epox : Int) (file : Option JSVal) :
    exec epox ["clear", "task", "list"] file =
      ⟨.str wipedMsg, some initialDoc, []⟩ := rfl

/-- C8: a create command that hits a read/parse failure on the store file
(`readFileSync`/`JSON.parse` throwing) makes `exec` return the bare
boolean `false` from `updateTaskList`'s catch block — a non-string value —
contradicting the documented string-only reply contract. -/
theorem exec_parse_failure_returns_nonstring :
    exec 0 ["hi", "there", "every", "5", "on", "mychan", "named", "t-1"] none =
      ⟨.boolFalse, none, ["5"]⟩
    ∧ ∀ s : String, (Reply.boolFalse : Reply) ≠ .str s :=
  ⟨rfl, fun _ h => Reply.noConfusion h⟩

/-- C3: the modify path stores a task whose `totalWaitInterval` is `0`:
`modify t-1 every 0` passes the field validator (`0` matches the interval
pattern), `parseSeconds` returns the rejection sentinel `0`, and
`modifyTask` writes it into the record unchecked, reporting success. -/
theorem exec_modify_every_zero_stored :
    exec 0 ["modify", "t-1", "every", "0"] (some sampleDoc) =
      ⟨.str "Task t-1 successfully modified.",
       some (.arr [.obj [("t-1",
         .obj [("totalWaitInterval", .num 0), ("channel", .str "mychan"),
               ("taskMessage", .str "hello there")])]]),
       ["0"]⟩ := rfl

/-- C1 counterexample: on a store whose serialization fails the
structural pattern (an entry with only two fields), the clear operation
does not fail with "Invalid Task List." — it succeeds and rewrites the
document, so the claim is false for the clear operation. -/
theorem clear_succeeds_on_invalid_store :
    reMatches taskListRE (jsonStringify twoFieldDoc).data = false
    ∧ exec 0 ["clear", "task", "list"] (some twoFieldDoc) =
        ⟨.str wipedMsg, some initialDoc, []⟩
    ∧ wipedMsg ≠ invalidTaskListMsg :=
  ⟨by decide, rfl, by decide⟩

/-- C2 counterexample: `modify t-1 every abc def` carries two value
tokens, so `modifyTask` skips the field validation (its guard requires
exactly one token) and `parseSeconds` is invoked on `"abc"`, a string
failing the interval pattern. -/
theorem parseSeconds_called_on_unvalidated_string :
    (exec 0 ["modify", "t-1", "every", "abc", "def"] (some sampleDoc)).secondsCalls
      = ["abc"]
    ∧ reMatches intervalRE "abc".data = false :=
  ⟨rfl, by decide⟩

/-- C6 counterexample: a rename directive whose new name equals the old
name deletes the task outright instead of preserving it: the spliced
`taskName` is an array, so the guard `taskName !== updatedTask["named"]`
always holds, the record is copied onto its own key and then deleted. -/
theorem rename_to_same_name_deletes_task :
    exec 0 ["modify", "t-1", "named", "t-1"] (some sampleDoc) =
      ⟨.str "Task t-1 successfully modified.", some (.arr [.obj []]), []⟩
    ∧ objGet ([] : List (String × JSVal)) "t-1" = none :=
  ⟨rfl, rfl⟩

/-- C10: the empty store document `[{}]` (written by `DBInit` and by the
clear command) passes the Store Validator for every `taskName` argument,
and consequently no create/modify/delete operation on a freshly
initialized or freshly cleared store replies "Invalid Task List.". -/
theorem initialDoc_passes_validator :
    (∀ tn : JSVal, validateJSON initialDoc tn = .ok true)
    ∧ ∀ (tn : JSVal) (ty : OpType) (task : List (String × JSVal)),
        (updateTaskList tn ty task (some initialDoc)).1 ≠ .str invalidTaskListMsg := by
  constructor
  · intro tn
    rfl
  · intro tn ty task
    cases ty with
    | create =>
      intro h
      have he : updateTaskList tn .create task (some initialDoc) =
          (.str ("Task " ++ jsToString tn ++ " activated on channel "
              ++ jsToStringOpt (objGet task "channel") ++ "."),
           some (.arr [.obj (objSet [] (jsToString tn) (.obj task))])) := rfl
      rw [he] at h
      simp only [Reply.str.injEq] at h
      have h1 := congrArg (fun s : String => s.data.head?) h
      simp only [String.data_append, List.append_assoc, List.cons_append,
        List.head?_cons, invalidTaskListMsg] at h1
      exact absurd h1 (by decide)
    | modify =>
      intro h
      have he : updateTaskList tn .modify task (some initialDoc) =
          (.str ("The task \x27" ++ jsToString tn ++ "\x27 does not exists."),
           some initialDoc) := rfl
      rw [he] at h
      simp only [Reply.str.injEq] at h
      have h1 := congrArg (fun s : String => s.data.head?) h
      simp only [String.data_append, List.append_assoc, List.cons_append,
        List.head?_cons, invalidTaskListMsg] at h1
      exact absurd h1 (by decide)
    | delete =>
      intro h
      have he : updateTaskList tn .delete task (some initialDoc) =
          (.str ("The task \x27" ++ jsToString tn ++ "\x27 does not exists."),
           some initialDoc) := rfl
      rw [he] at h
      simp only [Reply.str.injEq] at h
      have h1 := congrArg (fun s : String => s.data.head?) h
      simp only [String.data_append, List.append_assoc, List.cons_append,
        List.head?_cons, invalidTaskListMsg] at h1
      exact absurd h1 (by decide)

/-- C1 (amended): on a store document whose serialization fails the
structural pattern, every create and every delete operation — the
validator is called with the falsy `""` there, so no document shape can
make it throw — replies "Invalid Task List." and leaves the store
unchanged; a modify operation does the same whenever the document is an
array headed by an object (in particular the spec's two-field corrupt
example). Clear is excluded: it rewrites the document without
validating. -/
theorem updateTaskList_rejects_invalid_store (doc : JSVal) (tn : JSVal)
    (task : List (String × JSVal))
    (hbad : reMatches taskListRE (jsonStringify doc).data = false) :
    updateTaskList tn .create task (some doc) = (.str invalidTaskListMsg, some doc)
    ∧ updateTaskList tn .delete task (some doc) = (.str invalidTaskListMsg, some doc)
    ∧ ∀ (tasks : List (String × JSVal)) (rest : List JSVal),
        doc = .arr (.obj tasks :: rest) →
        updateTaskList tn .modify task (some doc) =
          (.str invalidTaskListMsg, some doc) := by
  refine ⟨?_, ?_, ?_⟩
  · simp [updateTaskList, validateJSON, hbad, jsTruthy]
  · simp [updateTaskList, validateJSON, hbad, jsTruthy]
  · intro tasks rest hdoc
    subst hdoc
    simp [updateTaskList, validateJSON, hbad, jsTruthy]

/-- Witness for the amended C1: on the two-field corrupt store, a create
and a modify operation are both rejected with "Invalid Task List." and
leave the document as is. -/
theorem updateTaskList_rejects_invalid_store_witness :
    reMatches taskListRE (jsonStringify twoFieldDoc).data = false
    ∧ updateTaskList (.str "t-1") .create freshTask (some twoFieldDoc) =
        (.str invalidTaskListMsg, some twoFieldDoc)
    ∧ updateTaskList (.arr [.str "t-1"]) .modify [("channel", .str "newchan")]
        (some twoFieldDoc) =
      (.str invalidTaskListMsg, some twoFieldDoc) :=
  ⟨by decide,
   (updateTaskList_rejects_invalid_store twoFieldDoc (.str "t-1") freshTask
      (by decide)).1,
   (updateTaskList_rejects_invalid_store twoFieldDoc (.arr [.str "t-1"])
      [("channel", .str "newchan")] (by decide)).2.2 twoFieldTasks [] rfl⟩

theorem mem_keys_of_objGet (l : List (String × JSVal)) (k : String) (v : JSVal)
    (h : objGet l k = some v) : k ∈ l.map Prod.fst := by
  induction l with
  | nil => simp [objGet] at h
  | cons p rest ih =>
    obtain ⟨pk, pv⟩ := p
    by_cases hp : pk = k
    · simp [hp]
    · simp only [objGet, if_neg hp] at h
      simp [ih h]

theorem keys_objSet_mem (l : List (String × JSVal)) (k : String) (v : JSVal)
    (h : k ∈ l.map Prod.fst) : (objSet l k v).map Prod.fst = l.map Prod.fst := by
  induction l with
  | nil => simp at h
  | cons p rest ih =>
    obtain ⟨pk, pv⟩ := p
    by_cases hp : pk = k
    · simp [objSet, hp]
    · simp only [List.map_cons, List.mem_cons] at h
      rcases h with h | h
      · exact absurd h.symm hp
      · simp [objSet, hp, ih h]

theorem keys_objSet_not_mem (l : List (String × JSVal)) (k : String) (v : JSVal)
    (h : k ∉ l.map Prod.fst) : (objSet l k v).map Prod.fst = l.map Prod.fst ++ [k] := by
  induction l with
  | nil => simp [objSet]
  | cons p rest ih =>
    obtain ⟨pk, pv⟩ := p
    simp only [List.map_cons, List.mem_cons] at h
    push_neg at h
    have h1 : ¬ (pk = k) := fun he => h.1 he.symm
    simp [objSet, h1, ih h.2]

theorem nodup_keys_objSet (l : List (String × JSVal)) (k : String) (v : JSVal)
    (h : (l.map Prod.fst).Nodup) : ((objSet l k v).map Prod.fst).Nodup := by
  by_cases hm : k ∈ l.map Prod.fst
  · rw [keys_objSet_mem l k v hm]
    exact h
  · rw [keys_objSet_not_mem l k v hm]
    simp [List.nodup_append, h, hm]


/-- C5: on a validated store, creating under a name that is already
present replies the "already exists" message and writes nothing, while
creating under an absent name inserts the record, persists it, and
replies the confirmation naming the task and its channel. -/
theorem create_checks_existing_name (tasks : List (String × JSVal)) (name : String)
    (task : List (String × JSVal))
    (hvalid : reMatches taskListRE (jsonStringify (.arr [.obj tasks])).data = true) :
    (∀ fields, objGet tasks name = some (.obj fields) →
      updateTaskList (.str name) .create task (some (.arr [.obj tasks])) =
        (.str ("Task with name \x27" ++ name ++ "\x27 already exists."),
         some (.arr [.obj tasks])))
    ∧ ∀ chan, objGet tasks name = none → objGet task "channel" = some (.str chan) →
      updateTaskList (.str name) .create task (some (.arr [.obj tasks])) =
        (.str ("Task " ++ name ++ " activated on channel " ++ chan ++ "."),
         some (.arr [.obj (objSet tasks name (.obj task))])) := by
  constructor
  · intro fields hf
    simp [updateTaskList, validateJSON, hvalid, jsToString, hf, jsTruthyOpt, jsTruthy]
  · intro chan hn hc
    simp [updateTaskList, validateJSON, hvalid, jsToString, hn, hc, jsTruthyOpt,
      jsToStringOpt]

/-- Witness for C5: both create outcomes on the concrete one-task store. -/
theorem create_checks_existing_name_witness :
    (updateTaskList (.str "t-1") .create freshTask (some (.arr [.obj sampleTasks])) =
      (.str ("Task with name \x27" ++ "t-1" ++ "\x27 already exists."),
       some (.arr [.obj sampleTasks])))
    ∧ updateTaskList (.str "t-9") .create freshTask (some (.arr [.obj sampleTasks])) =
      (.str ("Task " ++ "t-9" ++ " activated on channel " ++ "chans" ++ "."),
       some (.arr [.obj (objSet sampleTasks "t-9" (.obj freshTask))])) :=
  ⟨(create_checks_existing_name sampleTasks "t-1" freshTask (by decide)).1
      sampleTask rfl,
   (create_checks_existing_name sampleTasks "t-9" freshTask (by decide)).2
      "chans" rfl rfl⟩

/-- C6 (amended): on a validated store with unique keys, a rename
directive whose new name differs from the old moves the record wholesale
to the new key — every field value preserved — deletes the old key, and
reports success. (The un-amended claim fails when the new name equals
the old: the record is then deleted outright.) -/
theorem rename_moves_record (tasks : List (String × JSVal)) (oldName newName : String)
    (fields : List (String × JSVal))
    (hvalid : reMatches taskListRE (jsonStringify (.arr [.obj tasks])).data = true)
    (hnodup : (tasks.map Prod.fst).Nodup)
    (hold : objGet tasks oldName = some (.obj fields))
    (hne : oldName ≠ newName) :
    updateTaskList (.arr [.str oldName]) .modify [("named", .str newName)]
        (some (.arr [.obj tasks])) =
      (.str ("Task " ++ oldName ++ " successfully modified."),
       some (.arr [.obj (objDelete (objSet tasks newName (.obj fields)) oldName)]))
    ∧ objGet (objDelete (objSet tasks newName (.obj fields)) oldName) newName
        = some (.obj fields)
    ∧ objGet (objDelete (objSet tasks newName (.obj fields)) oldName) oldName = none := by
  refine ⟨?_, ?_, ?_⟩
  · simp [updateTaskList, validateJSON, hvalid, jsToString, jsToStringArr, hold,
      jsTruthyOpt, jsTruthy, jsStrictEq, objGet]
  · rw [objGet_objDelete_ne _ _ _ (Ne.symm hne), objGet_objSet_self]
  · exact objGet_objDelete_self _ _ (nodup_keys_objSet tasks newName (.obj fields) hnodup)

/-- Witness for the amended C6: renaming `t-1` to `t-9` on the concrete
one-task store. -/
theorem rename_moves_record_witness :
    updateTaskList (.arr [.str "t-1"]) .modify [("named", .str "t-9")]
        (some (.arr [.obj sampleTasks])) =
      (.str ("Task " ++ "t-1" ++ " successfully modified."),
       some (.arr [.obj (objDelete (objSet sampleTasks "t-9" (.obj sampleTask)) "t-1")]))
    ∧ objGet (objDelete (objSet sampleTasks "t-9" (.obj sampleTask)) "t-1") "t-9"
        = some (.obj sampleTask)
    ∧ objGet (objDelete (objSet sampleTasks "t-9" (.obj sampleTask)) "t-1") "t-1"
        = none :=
  rename_moves_record sampleTasks "t-1" "t-9" sampleTask (by decide) (by decide)
    rfl (by decide)

/-- C9: renaming a task onto the name of another existing task silently
overwrites that task's record, reports success, and shrinks the store by
one entry; no conflict check guards the rename target. -/
theorem rename_overwrites_existing_target (tasks : List (String × JSVal))
    (oldName newName : String) (fieldsOld fieldsNew : List (String × JSVal))
    (hvalid : reMatches taskListRE (jsonStringify (.arr [.obj tasks])).data = true)
    (hold : objGet tasks oldName = some (.obj fieldsOld))
    (hnew : objGet tasks newName = some (.obj fieldsNew))
    (hne : oldName ≠ newName) :
    updateTaskList (.arr [.str oldName]) .modify [("named", .str newName)]
        (some (.arr [.obj tasks])) =
      (.str ("Task " ++ oldName ++ " successfully modified."),
       some (.arr [.obj (objDelete (objSet tasks newName (.obj fieldsOld)) oldName)]))
    ∧ objGet (objDelete (objSet tasks newName (.obj fieldsOld)) oldName) newName
        = some (.obj fieldsOld)
    ∧ (objDelete (objSet tasks newName (.obj fieldsOld)) oldName).length
        = tasks.length - 1 := by
  refine ⟨?_, ?_, ?_⟩
  · simp [updateTaskList, validateJSON, hvalid, jsToString, jsToStringArr, hold,
      jsTruthyOpt, jsTruthy, jsStrictEq, objGet]
  · rw [objGet_objDelete_ne _ _ _ (Ne.symm hne), objGet_objSet_self]
  · have hmemNew : newName ∈ tasks.map Prod.fst := mem_keys_of_objGet _ _ _ hnew
    have hmemOld : oldName ∈ (objSet tasks newName (.obj fieldsOld)).map Prod.fst := by
      rw [keys_objSet_mem _ _ _ hmemNew]
      exact mem_keys_of_objGet _ _ _ hold
    rw [length_objDelete_mem _ _ hmemOld, length_objSet_mem _ _ _ hmemNew]

set_option maxRecDepth 4000 in
/-- Witness for C9: renaming `t-1` onto the existing `t-2` in the
concrete two-task store. -/
theorem rename_overwrites_existing_target_witness :
    updateTaskList (.arr [.str "t-1"]) .modify [("named", .str "t-2")]
        (some (.arr [.obj twoTasks])) =
      (.str ("Task " ++ "t-1" ++ " successfully modified."),
       some (.arr [.obj (objDelete (objSet twoTasks "t-2" (.obj sampleTask)) "t-1")]))
    ∧ objGet (objDelete (objSet twoTasks "t-2" (.obj sampleTask)) "t-1") "t-2"
        = some (.obj sampleTask)
    ∧ (objDelete (objSet twoTasks "t-2" (.obj sampleTask)) "t-1").length
        = twoTasks.length - 1 :=
  rename_overwrites_existing_target twoTasks "t-1" "t-2" sampleTask secondTask
    (by decide) rfl rfl (by decide)

theorem ite_zero_cast (n : Nat) : (if n = 0 then (0 : Int) else (n : Int)) = n := by
  split_ifs with hx
  · simp [hx]
  · rfl

theorem ite_zero_cast_mul (n : Nat) (k : Int) :
    (if n = 0 then (0 : Int) else (n : Int) * k) = (n : Int) * k := by
  split_ifs with hx
  · simp [hx]
  · rfl

theorem ite_zero_cast_mul2 (n : Nat) (k1 k2 : Int) :
    (if n = 0 then (0 : Int) else (n : Int) * k1 * k2) = (n : Int) * k1 * k2 := by
  split_ifs with hx
  · simp [hx]
  · rfl

theorem parseSeconds_three_parts (epox : Int) (hep : 0 ≤ epox) (interval : String)
    (a b c : List Char) (h m s : Nat)
    (hsplit : splitChar ':' interval.data = [a, b, c])
    (ha : jsParseInt a = some (h : Int)) (hb : jsParseInt b = some (m : Int))
    (hc : jsParseInt c = some (s : Int))
    (hcap : epox + (3600 * h + 60 * m + s) ≤ jsMaxTime) :
    parseSeconds epox interval = 3600 * h + 60 * m + s := by
  have hmax : jsMaxTime = 8640000000000000 := rfl
  unfold parseSeconds
  rw [hsplit]
  simp only [List.map_cons, List.map_nil, ha, hb, hc]
  have hds : dateValid (epox + (s : Int)) = true := by
    simp only [dateValid, decide_eq_true_eq]
    omega
  have hdm : dateValid (epox + (m : Int) * 60) = true := by
    simp only [dateValid, decide_eq_true_eq]
    omega
  have hdh : dateValid (epox + (h : Int) * 60 * 60) = true := by
    simp only [dateValid, decide_eq_true_eq]
    omega
  have hdt : dateValid ((s : Int) + (m : Int) * 60 + (h : Int) * 60 * 60) = true := by
    simp only [dateValid, decide_eq_true_eq]
    omega
  simp [Option.getD_some, numTruthy, decide_eq_true_eq, hds, hdm, hdh]
  rw [ite_zero_cast, ite_zero_cast_mul, ite_zero_cast_mul2, hdt]
  rw [if_neg (by simp : ¬ (true = false))]
  omega

theorem parseSeconds_two_parts (epox : Int) (hep : 0 ≤ epox) (interval : String)
    (b c : List Char) (m s : Nat)
    (hsplit : splitChar ':' interval.data = [b, c])
    (hb : jsParseInt b = some (m : Int)) (hc : jsParseInt c = some (s : Int))
    (hcap : epox + (60 * m + s) ≤ jsMaxTime) :
    parseSeconds epox interval = 60 * m + s := by
  have hmax : jsMaxTime = 8640000000000000 := rfl
  unfold parseSeconds
  rw [hsplit]
  simp only [List.map_cons, List.map_nil, hb, hc]
  have hds : dateValid (epox + (s : Int)) = true := by
    simp only [dateValid, decide_eq_true_eq]
    omega
  have hdm : dateValid (epox + (m : Int) * 60) = true := by
    simp only [dateValid, decide_eq_true_eq]
    omega
  have hdt : dateValid ((s : Int) + (m : Int) * 60) = true := by
    simp only [dateValid, decide_eq_true_eq]
    omega
  simp [Option.getD_some, numTruthy, decide_eq_true_eq, hds, hdm]
  rw [ite_zero_cast, ite_zero_cast_mul, hdt]
  rw [if_neg (by simp : ¬ (true = false))]
  omega

theorem parseSeconds_one_part (epox : Int) (hep : 0 ≤ epox) (interval : String)
    (c : List Char) (s : Nat)
    (hsplit : splitChar ':' interval.data = [c])
    (hc : jsParseInt c = some (s : Int))
    (hcap : epox + s ≤ jsMaxTime) :
    parseSeconds epox interval = s := by
  have hmax : jsMaxTime = 8640000000000000 := rfl
  unfold parseSeconds
  rw [hsplit]
  simp only [List.map_cons, List.map_nil, hc]
  have hds : dateValid (epox + (s : Int)) = true := by
    simp only [dateValid, decide_eq_true_eq]
    omega
  have hdt : dateValid ((s : Int)) = true := by
    simp only [dateValid, decide_eq_true_eq]
    omega
  simp [Option.getD_some, numTruthy, decide_eq_true_eq, hds]
  rw [ite_zero_cast, hdt]
  rw [if_neg (by simp : ¬ (true = false))]

/-- C4: with the clock reading `epox` in its working range, `parseSeconds`
reads the `:`-separated components right-to-left as seconds, minutes,
hours — for one, two or three components, with absent higher units
contributing zero — and returns the total in seconds; in particular
`parseSeconds "2:5:30" = 7530` and `parseSeconds "60:00" = 3600`. -/
theorem parseSeconds_reads_right_to_left (epox : Int) (hep : 0 ≤ epox)
    (hcap : epox + 7530 ≤ jsMaxTime) :
    (∀ (interval : String) (a b c : List Char) (h m s : Nat),
        splitChar ':' interval.data = [a, b, c] →
        jsParseInt a = some (h : Int) → jsParseInt b = some (m : Int) →
        jsParseInt c = some (s : Int) →
        epox + (3600 * h + 60 * m + s) ≤ jsMaxTime →
        parseSeconds epox interval = 3600 * h + 60 * m + s)
    ∧ (∀ (interval : String) (b c : List Char) (m s : Nat),
        splitChar ':' interval.data = [b, c] →
        jsParseInt b = some (m : Int) → jsParseInt c = some (s : Int) →
        epox + (60 * m + s) ≤ jsMaxTime →
        parseSeconds epox interval = 60 * m + s)
    ∧ (∀ (interval : String) (c : List Char) (s : Nat),
        splitChar ':' interval.data = [c] →
        jsParseInt c = some (s : Int) →
        epox + s ≤ jsMaxTime →
        parseSeconds epox interval = s)
    ∧ parseSeconds epox "2:5:30" = 7530
    ∧ parseSeconds epox "60:00" = 3600 := by
  refine ⟨fun i a b c h m s h1 h2 h3 h4 h5 =>
      parseSeconds_three_parts epox hep i a b c h m s h1 h2 h3 h4 h5,
    fun i b c m s h1 h2 h3 h4 =>
      parseSeconds_two_parts epox hep i b c m s h1 h2 h3 h4,
    fun i c s h1 h2 h3 =>
      parseSeconds_one_part epox hep i c s h1 h2 h3, ?_, ?_⟩
  · have h3p := parseSeconds_three_parts epox hep "2:5:30" ['2'] ['5'] ['3', '0']
      2 5 30 (by decide) (by decide) (by decide) (by decide) (by push_cast; omega)
    rw [h3p]
    norm_num
  · have h2p := parseSeconds_two_parts epox hep "60:00" ['6', '0'] ['0', '0']
      60 0 (by decide) (by decide) (by decide) (by push_cast; omega)
    rw [h2p]
    norm_num

/-- Witness for C4: the two pinned conversions at clock reading `0`. -/
theorem parseSeconds_reads_right_to_left_witness :
    parseSeconds 0 "2:5:30" = 7530 ∧ parseSeconds 0 "60:00" = 3600 :=
  ⟨(parseSeconds_reads_right_to_left 0 (by decide) (by decide)).2.2.2.1,
   (parseSeconds_reads_right_to_left 0 (by decide) (by decide)).2.2.2.2⟩

theorem intervalRE_of_checkRegex_every (v : String) (rest : List (String × String))
    (h : checkRegexNotMatch (("every", v) :: rest) = none) :
    reMatches intervalRE v.data = true := by
  by_cases hm : reMatches intervalRE v.data
  · exact hm
  · simp [checkRegexNotMatch, hm] at h

theorem modifyTask_calls_validated (epox : Int) (req : List String)
    (file : Option JSVal) (s : String)
    (hs : s ∈ (modifyTask epox req file).secondsCalls) :
    reMatches intervalRE s.data = true
    ∨ ∃ nm rest, req = nm :: "every" :: s :: rest ∧ rest ≠ [] := by
  rcases req with _ | ⟨nm, rest1⟩
  · simp [modifyTask] at hs
  · rcases rest1 with _ | ⟨x, rest2⟩
    · simp [modifyTask] at hs
    · rcases rest2 with _ | ⟨y, rest3⟩
      · -- a single argument token: delete/remove or usage, no parseSeconds call
        by_cases hx : x = "remove"
        · simp [modifyTask, hx] at hs
        · by_cases hx2 : x = "delete"
          · simp [modifyTask, hx, hx2] at hs
          · simp [modifyTask, hx, hx2] at hs
      · -- at least two argument tokens
        by_cases hsay : x = "say"
        · simp [modifyTask, hsay] at hs
        · by_cases hev : x = "every"
          · subst hev
            rcases rest3 with _ | ⟨z, rest4⟩
            · -- exactly one value token: validated before the call
              simp only [modifyTask] at hs
              rcases hck : checkRegexNotMatch [("every", y)] with _ | msg
              · simp [hck, hsay] at hs
                subst hs
                exact Or.inl (intervalRE_of_checkRegex_every s [] hck)
              · simp [hck, hsay] at hs
            · -- two or more value tokens: the check is skipped
              simp [modifyTask, hsay] at hs
              subst hs
              exact Or.inr ⟨nm, z :: rest4, rfl, by simp⟩
          · by_cases hon : x = "on"
            · rcases rest3 with _ | ⟨z, rest4⟩
              · rcases hck : checkRegexNotMatch [("on", y)] with _ | msg
                · simp [modifyTask, hsay, hev, hon, hck] at hs
                · simp [modifyTask, hsay, hev, hon, hck] at hs
              · simp [modifyTask, hsay, hev, hon] at hs
            · by_cases hnm : x = "named"
              · rcases rest3 with _ | ⟨z, rest4⟩
                · rcases hck : checkRegexNotMatch [("named", y)] with _ | msg
                  · simp [modifyTask, hsay, hev, hon, hnm, hck] at hs
                  · simp [modifyTask, hsay, hev, hon, hnm, hck] at hs
                · simp [modifyTask, hsay, hev, hon, hnm] at hs
              · simp [modifyTask, hsay, hev, hon, hnm] at hs

/-- C2 (amended): every string handed to `parseSeconds` during an `exec`
call either matches the interval pattern (the Field Validator ran first),
or the command was a modify-every carrying two or more value tokens — in
which case its first value token reaches `parseSeconds` unvalidated,
because the guard in `modifyTask` only validates a single-token value.
(The un-amended claim fails on `modify <name> every abc def`.) -/
theorem exec_calls_validated (epox : Int) (request : List String)
    (file : Option JSVal) (s : String)
    (hs : s ∈ (exec epox request file).secondsCalls) :
    reMatches intervalRE s.data = true
    ∨ ∃ nm rest, request = "modify" :: nm :: "every" :: s :: rest ∧ rest ≠ [] := by
  by_cases hclear : String.intercalate " " request = "clear task list"
  · simp [exec, hclear] at hs
  · by_cases hmod : request.head? = some "modify"
    · simp only [exec, hclear, if_false, hmod, if_true, reduceIte] at hs
      rcases request with _ | ⟨r0, tail⟩
      · simp at hmod
      · simp only [List.head?_cons, Option.some.injEq] at hmod
        subst hmod
        simp only [List.drop_succ_cons, List.drop_zero] at hs
        rcases modifyTask_calls_validated epox tail file s hs with h | ⟨nm, rest, hre, hne⟩
        · exact Or.inl h
        · exact Or.inr ⟨nm, rest, by rw [hre], hne⟩
    · simp only [exec, hclear, hmod, if_false, reduceIte] at hs
      split at hs
      · simp at hs
      · split at hs
        · split at hs
          · simp at hs
          · rename_i k1 every k2 onChan k3 taskName hck
            split at hs <;>
              (simp at hs
               subst hs
               exact Or.inl (intervalRE_of_checkRegex_every _ _ hck))
        · simp at hs

/-- Witness for the amended C2: the interval token of a well-formed
create command reaches `parseSeconds` and matches the pattern. -/
theorem exec_calls_validated_witness :
    "5" ∈ (exec 0 ["hi", "there", "every", "5", "on", "mychan", "named", "t-1"]
        (some initialDoc)).secondsCalls
    ∧ (reMatches intervalRE "5".data = true
       ∨ ∃ nm rest,
          ["hi", "there", "every", "5", "on", "mychan", "named", "t-1"]
            = "modify" :: nm :: "every" :: "5" :: rest ∧ rest ≠ []) :=
  ⟨by decide,
   exec_calls_validated 0 ["hi", "there", "every", "5", "on", "mychan", "named", "t-1"]
     (some initialDoc) "5" (by decide)⟩
